import Mathlib

/-!
# THOR (Two-Hop Opportunistic Routing) — shallow embedding

A shallow embedding of the THOR protocol engine (`THOR.h` / `THOR.cpp`):
the 22-byte wire codec, the neighbor table, the Internet-Gravity scorer,
and the data-plane (originate / forward / queue / flush).

Modelling conventions:
* Bytes are `Nat` values; a real byte string satisfies `b < 256` pointwise.
* `uint32_t` fields are `Nat` reduced mod `2 ^ 32` where the code stores them
  through fixed-width memory (the codec); ids fed to the API are `Nat` with
  well-formedness hypotheses `< 2 ^ 32` where a claim needs them.
* The bit-field byte `flags` (ttl:5, intneighbour:1, visited:1, myInternet:1,
  declared low-bit first, packed) is modelled by `flagsByte` / `parseFlags`.
* `std::map<uint32_t, NeighborInfo>` is modelled as an association list
  ordered ascending by key (the iteration order of `std::map`); `lastSeen`
  is a `Nat` timestamp passed explicitly to `NeighborStore` / `RemoveOld`.
* Out-parameter + `bool` decoding is modelled with `Option`.
-/

/-- The `flags` bit-field struct: `ttl : 5`, `intneighbour : 1`,
`visited : 1`, `myInternet : 1`, packed into one byte. -/
structure Flags where
  ttl : Nat
  intneighbour : Nat
  visited : Nat
  myInternet : Nat
  deriving DecidableEq, Repr

/-- The 22-byte wire `Header` of THOR.h: type, flags byte, then five
little-endian `uint32_t` fields. -/
structure Header where
  type : Nat
  flagsAndTTL : Flags
  destinationId : Nat
  senderId : Nat
  originId : Nat
  nextHopId : Nat
  sequence : Nat
  deriving DecidableEq, Repr

/-- A `Packet` is a header plus an opaque payload byte string. -/
structure Packet where
  header : Header
  payload : List Nat
  deriving DecidableEq, Repr

/-- Little-endian encoding of a `uint32_t` into four bytes. -/
def u32le (n : Nat) : List Nat :=
  [n % 256, n / 256 % 256, n / 65536 % 256, n / 16777216 % 256]

/-- Reassemble a `uint32_t` from four little-endian bytes (each byte is
stored through an 8-bit cell, hence the `% 256`). -/
def leToU32 (b0 b1 b2 b3 : Nat) : Nat :=
  b0 % 256 + b1 % 256 * 256 + b2 % 256 * 65536 + b3 % 256 * 16777216

/-- Emit the packed flags byte:
ttl in bits 0..4, intneighbour bit 5, visited bit 6, myInternet bit 7. -/
def flagsByte (f : Flags) : Nat :=
  f.ttl % 32 + f.intneighbour % 2 * 32 + f.visited % 2 * 64 + f.myInternet % 2 * 128

/-- Parse the packed flags byte back into the four bit-fields. -/
def parseFlags (b : Nat) : Flags :=
  { ttl := b % 32
    intneighbour := b / 32 % 2
    visited := b / 64 % 2
    myInternet := b / 128 % 2 }

/-- `THOR::SerializeHeader`: the 22 header bytes, in wire order. -/
def SerializeHeader (h : Header) : List Nat :=
  h.type % 256 :: flagsByte h.flagsAndTTL ::
    (u32le h.destinationId ++ u32le h.senderId ++ u32le h.originId ++
      u32le h.nextHopId ++ u32le h.sequence)

/-- `THOR::Serialize`: header bytes followed by the payload. -/
def Serialize (p : Packet) : List Nat :=
  SerializeHeader p.header ++ p.payload

/-- `THOR::Deserialize`: fails (returns `none`, the C++ `false`) iff the
input is shorter than `sizeof(Header) = 22`; otherwise memcpy the 22-byte
header (fields at the wire offsets of §6: type at 0, flags at 1, then the
five little-endian `uint32_t`s) and take the rest as payload.  Note the
C++ code performs no validation of the `type` byte. -/
def Deserialize (data : List Nat) : Option Packet :=
  if 22 ≤ data.length then
    some { header :=
            { type := data.getD 0 0 % 256
              flagsAndTTL := parseFlags (data.getD 1 0 % 256)
              destinationId :=
                leToU32 (data.getD 2 0) (data.getD 3 0) (data.getD 4 0) (data.getD 5 0)
              senderId :=
                leToU32 (data.getD 6 0) (data.getD 7 0) (data.getD 8 0) (data.getD 9 0)
              originId :=
                leToU32 (data.getD 10 0) (data.getD 11 0) (data.getD 12 0) (data.getD 13 0)
              nextHopId :=
                leToU32 (data.getD 14 0) (data.getD 15 0) (data.getD 16 0) (data.getD 17 0)
              sequence :=
                leToU32 (data.getD 18 0) (data.getD 19 0) (data.getD 20 0) (data.getD 21 0) }
           payload := data.drop 22 }
  else none

/-- `THOR::DeserializeHeader`: same length check, header only. -/
def DeserializeHeader (data : List Nat) : Option Header :=
  (Deserialize data).map Packet.header

/-- Well-formed flags: every bit-field within its width. -/
def Flags.WF (f : Flags) : Prop :=
  f.ttl < 32 ∧ f.intneighbour < 2 ∧ f.visited < 2 ∧ f.myInternet < 2

/-- Well-formed header: every field fits its wire width. -/
def Header.WF (h : Header) : Prop :=
  h.type < 256 ∧ h.flagsAndTTL.WF ∧ h.destinationId < 4294967296 ∧
    h.senderId < 4294967296 ∧ h.originId < 4294967296 ∧
    h.nextHopId < 4294967296 ∧ h.sequence < 4294967296

/-- Well-formed packet: well-formed header (the payload is opaque bytes). -/
def Packet.WF (p : Packet) : Prop :=
  p.header.WF

instance : DecidablePred Flags.WF := fun _ => by
  unfold Flags.WF; infer_instance

instance : DecidablePred Header.WF := fun _ => by
  unfold Header.WF; infer_instance

instance : DecidablePred Packet.WF := fun _ => by
  unfold Packet.WF; infer_instance

/-- In-memory neighbor metadata (`NeighborInfo` in THOR.h). -/
structure NeighborInfo where
  lastSeen : Nat
  rssi : Int
  hasInternetDirect : Bool
  hasInternetIndirect : Bool
  isVisited : Bool
  deriving DecidableEq, Repr

/-- The engine state: `std::map<uint32_t, NeighborInfo> neighborTable`
(modelled as an association list in ascending key order, the map's
iteration order) and `std::vector<Packet> packetQueue`. -/
structure THOR where
  neighborTable : List (Nat × NeighborInfo)
  packetQueue : List Packet
  deriving DecidableEq, Repr

/-- A freshly constructed engine: empty table, empty queue. -/
def initTHOR : THOR :=
  { neighborTable := [], packetQueue := [] }

/-- `std::map::operator[]` followed by a full overwrite of the mapped
value, as done by `NeighborStore`: insert keeping keys ascending,
replacing an existing binding. -/
def storeEntry (id : Nat) (info : NeighborInfo) :
    List (Nat × NeighborInfo) → List (Nat × NeighborInfo)
  | [] => [(id, info)]
  | (k, v) :: rest =>
    if id < k then (id, info) :: (k, v) :: rest
    else if id = k then (id, info) :: rest
    else (k, v) :: storeEntry id info rest

/-- `neighborTable[id].isVisited = true`: `operator[]` default-constructs
(zero-initialises) a missing entry, then the flag is set. -/
def setVisited (id : Nat) :
    List (Nat × NeighborInfo) → List (Nat × NeighborInfo)
  | [] => [(id, { lastSeen := 0, rssi := 0, hasInternetDirect := false,
                  hasInternetIndirect := false, isVisited := true })]
  | (k, v) :: rest =>
    if id < k then
      (id, { lastSeen := 0, rssi := 0, hasInternetDirect := false,
             hasInternetIndirect := false, isVisited := true }) :: (k, v) :: rest
    else if id = k then (id, { v with isVisited := true }) :: rest
    else (k, v) :: setVisited id rest

/-- `std::map::find`-style lookup in the association list. -/
def lookupNeighbor (id : Nat) : List (Nat × NeighborInfo) → Option NeighborInfo
  | [] => none
  | (k, v) :: rest => if k = id then some v else lookupNeighbor id rest

/-- `THOR::NeighborStore`: unconditional upsert of the full record.
The C++ body has no check on `nodeId`; any id (including `0` and
`0xFFFFFFFF`) is stored. -/
def THOR.NeighborStore (st : THOR) (nodeId : Nat) (now : Nat) (rssi : Int)
    (hasInternetDirect hasInternetIndirect isVisited : Bool) : THOR :=
  { st with
    neighborTable :=
      storeEntry nodeId
        { lastSeen := now, rssi := rssi,
          hasInternetDirect := hasInternetDirect,
          hasInternetIndirect := hasInternetIndirect,
          isVisited := isVisited }
        st.neighborTable }

/-- `THOR::RemoveOld`: drop every entry with `difftime(now, lastSeen) > 30`. -/
def THOR.RemoveOld (st : THOR) (now : Nat) : THOR :=
  { st with neighborTable :=
      st.neighborTable.filter (fun e => ¬ ((now : Int) - (e.2.lastSeen : Int) > 30)) }

/-- The per-neighbor Internet-Gravity score computed inside
`GetBestNextHop`: base class (direct 300 / indirect 200 / unvisited 100 /
visited 10) plus the RSSI adjustment (−50 / +50 / −20). -/
def neighborScore (info : NeighborInfo) : Int :=
  let base : Int :=
    if info.hasInternetDirect then 300
    else if info.hasInternetIndirect then 200
    else if info.isVisited then 10
    else 100
  if info.rssi > -50 then base - 50
  else if info.rssi ≤ -50 ∧ info.rssi ≥ -80 then base + 50
  else base - 20

/-- The scan loop of `GetBestNextHop`: carry `(bestNodeId, maxScore)`
through the table in iteration order; a neighbor wins only when its score
is strictly greater than the running maximum. -/
def bestLoop : List (Nat × NeighborInfo) → Nat → Int → Nat × Int
  | [], best, maxScore => (best, maxScore)
  | (id, info) :: rest, best, maxScore =>
    if neighborScore info > maxScore then bestLoop rest id (neighborScore info)
    else bestLoop rest best maxScore

/-- `THOR::GetBestNextHop`: `bestNodeId = 0`, `maxScore = -1`, scan the
table; return 0 on an empty table or when `maxScore` is still −1. -/
def THOR.GetBestNextHop (st : THOR) : Nat :=
  if st.neighborTable = [] then 0
  else if (bestLoop st.neighborTable 0 (-1)).2 = -1 then 0
  else (bestLoop st.neighborTable 0 (-1)).1

/-- `THOR::SendPacket`: build a DATA header (`ttl=15`, `visited=0`,
`nextHopId=0`), consult the scorer; on a hop, mark it visited, stamp the
header and return the serialized packet; otherwise enqueue (when the
queue holds fewer than 50) and return empty bytes. -/
def THOR.SendPacket (st : THOR) (DestId SenderId OriginId Sequence : Nat)
    (payload : List Nat) : THOR × List Nat :=
  let header : Header :=
    { type := 3
      flagsAndTTL := { ttl := 15, intneighbour := 0, visited := 0, myInternet := 0 }
      destinationId := DestId
      senderId := SenderId
      originId := OriginId
      nextHopId := 0
      sequence := Sequence }
  let bestHop := st.GetBestNextHop
  if bestHop ≠ 0 then
    let header' :=
      { header with
        nextHopId := bestHop,
        flagsAndTTL := { header.flagsAndTTL with visited := 1 } }
    ({ st with neighborTable := setVisited bestHop st.neighborTable },
     Serialize { header := header', payload := payload })
  else
    (if st.packetQueue.length < 50 then
       { st with packetQueue := st.packetQueue ++ [{ header := header, payload := payload }] }
     else st,
     [])

/-- `THOR::HandleData`: decode (empty on failure), drop when `ttl ≤ 1` or
when this node is the destination, otherwise decrement ttl, consult the
scorer; forward with `nextHopId = bestHop`, `visited = 1` on a hop, else
enqueue (when the queue holds fewer than 50) and return empty bytes. -/
def THOR.HandleData (st : THOR) (data : List Nat) (MyNodeId : Nat) :
    THOR × List Nat :=
  match Deserialize data with
  | none => (st, [])
  | some p =>
    if p.header.flagsAndTTL.ttl ≤ 1 then (st, [])
    else if p.header.destinationId = MyNodeId then (st, [])
    else
      let p1 : Packet :=
        { p with header :=
            { p.header with flagsAndTTL :=
                { p.header.flagsAndTTL with ttl := p.header.flagsAndTTL.ttl - 1 } } }
      let bestHop := st.GetBestNextHop
      if bestHop ≠ 0 then
        let p2 : Packet :=
          { p1 with header :=
              { p1.header with
                nextHopId := bestHop,
                flagsAndTTL := { p1.header.flagsAndTTL with visited := 1 } } }
        ({ st with neighborTable := setVisited bestHop st.neighborTable },
         Serialize p2)
      else
        (if st.packetQueue.length < 50 then
           { st with packetQueue := st.packetQueue ++ [p1] }
         else st,
         [])

/-- `THOR::ProcessQueue`: empty queue or no hop → empty batch, state kept;
otherwise mark the hop visited, rewrite every queued packet with
`nextHopId = bestHop` and `visited = 1`, serialize them in queue (FIFO)
order, and clear the queue. -/
def THOR.ProcessQueue (st : THOR) : THOR × List (List Nat) :=
  if st.packetQueue = [] then (st, [])
  else
    let bestHop := st.GetBestNextHop
    if bestHop = 0 then (st, [])
    else
      ({ neighborTable := setVisited bestHop st.neighborTable,
         packetQueue := [] },
       st.packetQueue.map (fun p =>
         Serialize { p with header :=
           { p.header with
             nextHopId := bestHop,
             flagsAndTTL := { p.header.flagsAndTTL with visited := 1 } } }))

/-- One public operation of the engine, for stating properties about
arbitrary operation sequences. -/
inductive Op where
  | neighborStore (nodeId now : Nat) (rssi : Int)
      (hasInternetDirect hasInternetIndirect isVisited : Bool)
  | removeOld (now : Nat)
  | sendPacket (DestId SenderId OriginId Sequence : Nat) (payload : List Nat)
  | handleData (data : List Nat) (MyNodeId : Nat)
  | processQueue
  deriving Repr

/-- The state transition of a single operation (outputs discarded). -/
def step (st : THOR) : Op → THOR
  | .neighborStore id now rssi d i v => st.NeighborStore id now rssi d i v
  | .removeOld now => st.RemoveOld now
  | .sendPacket a b c d pl => (st.SendPacket a b c d pl).1
  | .handleData data myId => (st.HandleData data myId).1
  | .processQueue => st.ProcessQueue.1

/-- Run a sequence of operations from a state. -/
def run (st : THOR) (ops : List Op) : THOR :=
  ops.foldl step st

/-! ## Codec lemmas -/

theorem exists_cons_of_le_length (x : List Nat) (n : Nat) (h : n + 1 ≤ x.length) :
    ∃ a t, x = a :: t := by
  cases x with
  | nil => simp at h
  | cons a t => exact ⟨a, t, rfl⟩

theorem exists_cons22 (x : List Nat) (hlen : 22 ≤ x.length) :
    ∃ b0 b1 b2 b3 b4 b5 b6 b7 b8 b9 b10 b11 b12 b13 b14 b15 b16 b17 b18 b19 b20 b21 rest,
      x = b0 :: b1 :: b2 :: b3 :: b4 :: b5 :: b6 :: b7 :: b8 :: b9 :: b10 :: b11 ::
          b12 :: b13 :: b14 :: b15 :: b16 :: b17 :: b18 :: b19 :: b20 :: b21 :: rest := by
  obtain ⟨b0, x, rfl⟩ := exists_cons_of_le_length x 21 (by omega)
  simp only [List.length_cons] at hlen
  obtain ⟨b1, x, rfl⟩ := exists_cons_of_le_length x 20 (by omega)
  simp only [List.length_cons] at hlen
  obtain ⟨b2, x, rfl⟩ := exists_cons_of_le_length x 19 (by omega)
  simp only [List.length_cons] at hlen
  obtain ⟨b3, x, rfl⟩ := exists_cons_of_le_length x 18 (by omega)
  simp only [List.length_cons] at hlen
  obtain ⟨b4, x, rfl⟩ := exists_cons_of_le_length x 17 (by omega)
  simp only [List.length_cons] at hlen
  obtain ⟨b5, x, rfl⟩ := exists_cons_of_le_length x 16 (by omega)
  simp only [List.length_cons] at hlen
  obtain ⟨b6, x, rfl⟩ := exists_cons_of_le_length x 15 (by omega)
  simp only [List.length_cons] at hlen
  obtain ⟨b7, x, rfl⟩ := exists_cons_of_le_length x 14 (by omega)
  simp only [List.length_cons] at hlen
  obtain ⟨b8, x, rfl⟩ := exists_cons_of_le_length x 13 (by omega)
  simp only [List.length_cons] at hlen
  obtain ⟨b9, x, rfl⟩ := exists_cons_of_le_length x 12 (by omega)
  simp only [List.length_cons] at hlen
  obtain ⟨b10, x, rfl⟩ := exists_cons_of_le_length x 11 (by omega)
  simp only [List.length_cons] at hlen
  obtain ⟨b11, x, rfl⟩ := exists_cons_of_le_length x 10 (by omega)
  simp only [List.length_cons] at hlen
  obtain ⟨b12, x, rfl⟩ := exists_cons_of_le_length x 9 (by omega)
  simp only [List.length_cons] at hlen
  obtain ⟨b13, x, rfl⟩ := exists_cons_of_le_length x 8 (by omega)
  simp only [List.length_cons] at hlen
  obtain ⟨b14, x, rfl⟩ := exists_cons_of_le_length x 7 (by omega)
  simp only [List.length_cons] at hlen
  obtain ⟨b15, x, rfl⟩ := exists_cons_of_le_length x 6 (by omega)
  simp only [List.length_cons] at hlen
  obtain ⟨b16, x, rfl⟩ := exists_cons_of_le_length x 5 (by omega)
  simp only [List.length_cons] at hlen
  obtain ⟨b17, x, rfl⟩ := exists_cons_of_le_length x 4 (by omega)
  simp only [List.length_cons] at hlen
  obtain ⟨b18, x, rfl⟩ := exists_cons_of_le_length x 3 (by omega)
  simp only [List.length_cons] at hlen
  obtain ⟨b19, x, rfl⟩ := exists_cons_of_le_length x 2 (by omega)
  simp only [List.length_cons] at hlen
  obtain ⟨b20, x, rfl⟩ := exists_cons_of_le_length x 1 (by omega)
  simp only [List.length_cons] at hlen
  obtain ⟨b21, x, rfl⟩ := exists_cons_of_le_length x 0 (by omega)
  exact ⟨b0, b1, b2, b3, b4, b5, b6, b7, b8, b9, b10, b11, b12, b13, b14, b15, b16,
    b17, b18, b19, b20, b21, x, rfl⟩

theorem serializeHeader_length (h : Header) : (SerializeHeader h).length = 22 := by
  simp [SerializeHeader, u32le]

theorem deserialize_serialize (p : Packet) (hp : p.WF) :
    Deserialize (Serialize p) = some p := by
  obtain ⟨⟨t, ⟨ttl, inb, vis, my⟩, d, s, o, n, q⟩, payload⟩ := p
  obtain ⟨ht, ⟨h1, h2, h3, h4⟩, hd, hs, ho, hn, hq⟩ := hp
  simp only [Header.WF, Flags.WF] at *
  simp [Serialize, SerializeHeader, u32le, flagsByte, Deserialize, List.cons_append,
    List.nil_append, List.length_cons, List.getD_cons_zero, List.getD_cons_succ,
    List.drop_succ_cons, List.drop_zero, parseFlags, leToU32, Option.some.injEq,
    Packet.mk.injEq, Header.mk.injEq, Flags.mk.injEq]
  omega

theorem serialize_deserialize (x : List Nat) (hlen : 22 ≤ x.length)
    (hbytes : ∀ b ∈ x, b < 256) (p : Packet) (hdec : Deserialize x = some p) :
    Serialize p = x := by
  obtain ⟨b0, b1, b2, b3, b4, b5, b6, b7, b8, b9, b10, b11, b12, b13, b14, b15, b16,
    b17, b18, b19, b20, b21, rest, rfl⟩ := exists_cons22 x hlen
  simp only [List.mem_cons, forall_eq_or_imp] at hbytes
  obtain ⟨c0, c1, c2, c3, c4, c5, c6, c7, c8, c9, c10, c11, c12, c13, c14, c15, c16,
    c17, c18, c19, c20, c21, -⟩ := hbytes
  simp only [Deserialize, List.length_cons, List.getD_cons_zero, List.getD_cons_succ,
    List.drop_succ_cons, List.drop_zero, parseFlags, leToU32] at hdec
  rw [if_pos (by omega)] at hdec
  rw [Option.some.injEq] at hdec
  subst hdec
  simp [Serialize, SerializeHeader, u32le, flagsByte, List.cons_append,
    List.nil_append, List.cons.injEq, parseFlags, leToU32]
  omega

theorem deserialize_WF (data : List Nat) (p : Packet) (h : Deserialize data = some p) :
    p.WF := by
  unfold Deserialize at h
  split at h
  · rw [Option.some.injEq] at h
    subst h
    unfold Packet.WF Header.WF Flags.WF parseFlags leToU32
    refine ⟨?_, ⟨?_, ?_, ?_, ?_⟩, ?_, ?_, ?_, ?_, ?_⟩ <;> simp <;> omega
  · exact absurd h (by simp)

/-! ## Scorer lemmas -/

theorem bestLoop_fst_mem (l : List (Nat × NeighborInfo)) (best : Nat) (m : Int) :
    (bestLoop l best m).1 = best ∨ (bestLoop l best m).1 ∈ l.map Prod.fst := by
  induction l generalizing best m with
  | nil => left; rfl
  | cons e rest ih =>
    obtain ⟨id, info⟩ := e
    simp only [bestLoop]
    split
    · rcases ih id (neighborScore info) with h | h
      · right; simp [h]
      · right; simp only [List.map_cons, List.mem_cons]; right; exact h
    · rcases ih best m with h | h
      · left; exact h
      · right; simp only [List.map_cons, List.mem_cons]; right; exact h

theorem bestLoop_const (l : List (Nat × NeighborInfo)) (best : Nat) (m : Int)
    (h : ∀ e ∈ l, neighborScore e.2 ≤ m) : bestLoop l best m = (best, m) := by
  induction l with
  | nil => rfl
  | cons e rest ih =>
    obtain ⟨id, info⟩ := e
    simp only [bestLoop]
    rw [if_neg (by have := h (id, info) (by simp); simp only at this; omega)]
    exact ih fun e he => h e (by simp [he])

theorem lookupNeighbor_setVisited (id : Nat) (t : List (Nat × NeighborInfo)) :
    (lookupNeighbor id (setVisited id t)).map NeighborInfo.isVisited = some true := by
  induction t with
  | nil => simp [setVisited, lookupNeighbor]
  | cons e rest ih =>
    obtain ⟨k, v⟩ := e
    simp only [setVisited]
    split
    · simp [lookupNeighbor]
    · split
      · next heq => simp [lookupNeighbor]
      · next hlt heq =>
        have hk : ¬ k = id := by omega
        simp only [lookupNeighbor, if_neg hk]
        exact ih

/-! ## Claims -/

/-- C1 (counterexample): a table holding exactly one neighbor, keyed 5, with
`isVisited = true`, no internet capability and `rssi = -90` scores
10 − 20 = −10, which does NOT beat the initial `maxScore = -1`, so
`GetBestNextHop` returns 0 — an id not present in the table — rather than
the sole neighbor's id 5. -/
theorem getBestNextHop_skips_sole_negative_neighbor :
    THOR.GetBestNextHop
        { neighborTable :=
            [(5, { lastSeen := 0, rssi := -90, hasInternetDirect := false,
                   hasInternetIndirect := false, isVisited := true })],
          packetQueue := [] } = 0 ∧
    neighborScore
        { lastSeen := 0, rssi := -90, hasInternetDirect := false,
          hasInternetIndirect := false, isVisited := true } = -10 ∧
    (0 : Nat) ∉
      ([(5, ({ lastSeen := 0, rssi := -90, hasInternetDirect := false,
               hasInternetIndirect := false, isVisited := true } : NeighborInfo))].map
        Prod.fst) := by
  decide

/-- C1 (amended): `GetBestNextHop` returns either 0 (in particular whenever
every neighbor's score is below 0, as for the sole visited no-internet
rssi −90 neighbor) or a node id actually present in the table. -/
theorem getBestNextHop_zero_or_mem (st : THOR) :
    st.GetBestNextHop = 0 ∨ st.GetBestNextHop ∈ st.neighborTable.map Prod.fst := by
  unfold THOR.GetBestNextHop
  split
  · left; rfl
  · split
    · left; rfl
    · exact bestLoop_fst_mem st.neighborTable 0 (-1)

/-- C2 (counterexample): the 22-byte all-zero string has type byte
0 ∉ {1,2,3}, yet both `Deserialize` and `DeserializeHeader` succeed —
the C++ decoders validate only the length, never the type field. -/
theorem deserialize_accepts_invalid_type :
    (List.replicate 22 (0 : Nat)).length = 22 ∧
    (List.replicate 22 (0 : Nat)).getD 0 0 ∉ ([1, 2, 3] : List Nat) ∧
    (Deserialize (List.replicate 22 0)).isSome = true ∧
    (DeserializeHeader (List.replicate 22 0)).isSome = true := by
  decide

/-- C2 (amended): decoding succeeds exactly when the input holds at least
22 bytes; the type byte is not validated. -/
theorem deserialize_isSome_iff_length (data : List Nat) :
    ((Deserialize data).isSome ↔ 22 ≤ data.length) ∧
    ((DeserializeHeader data).isSome ↔ 22 ≤ data.length) := by
  by_cases h : 22 ≤ data.length <;> simp [Deserialize, DeserializeHeader, h]

/-- C3 (code bug evaluation): `NeighborStore` performs no validation of the
node id; both reserved ids 0 and 0xFFFFFFFF = 4294967295 are inserted into
the neighbor table, contrary to the specified rejection. -/
theorem neighborStore_accepts_reserved_ids :
    (initTHOR.NeighborStore 0 100 (-90) false false true).neighborTable =
      [(0, { lastSeen := 100, rssi := -90, hasInternetDirect := false,
             hasInternetIndirect := false, isVisited := true })] ∧
    (initTHOR.NeighborStore 4294967295 100 (-90) false false true).neighborTable =
      [(4294967295, { lastSeen := 100, rssi := -90, hasInternetDirect := false,
                      hasInternetIndirect := false, isVisited := true })] := by
  decide

/-- C6: the wire codec round-trips.  Encoding the successful decode of a
byte string of length ≥ 22 with a valid type byte yields the string back,
and decoding the encoding of any well-formed packet yields the packet. -/
theorem codec_roundtrip :
    (∀ x : List Nat, 22 ≤ x.length → (∀ b ∈ x, b < 256) →
        x.getD 0 0 ∈ ([1, 2, 3] : List Nat) →
        ∀ p, Deserialize x = some p → Serialize p = x) ∧
    (∀ p : Packet, p.WF → Deserialize (Serialize p) = some p) :=
  ⟨fun x hlen hbytes _ p hdec => serialize_deserialize x hlen hbytes p hdec,
   fun p hp => deserialize_serialize p hp⟩

/-- Witness for `codec_roundtrip`: both directions at a concrete HELLO-typed
22-byte frame and a concrete well-formed packet. -/
theorem codec_roundtrip_witness :
    Serialize
        { header :=
            { type := 1
              flagsAndTTL := { ttl := 0, intneighbour := 0, visited := 0, myInternet := 0 }
              destinationId := 0
              senderId := 0
              originId := 0
              nextHopId := 0
              sequence := 0 }
          payload := [] } = 1 :: List.replicate 21 0 ∧
    Deserialize (Serialize
        { header :=
            { type := 3
              flagsAndTTL := { ttl := 14, intneighbour := 0, visited := 1, myInternet := 0 }
              destinationId := 9999
              senderId := 1
              originId := 1
              nextHopId := 3
              sequence := 1 }
          payload := [72] }) =
      some
        { header :=
            { type := 3
              flagsAndTTL := { ttl := 14, intneighbour := 0, visited := 1, myInternet := 0 }
              destinationId := 9999
              senderId := 1
              originId := 1
              nextHopId := 3
              sequence := 1 }
          payload := [72] } :=
  ⟨codec_roundtrip.1 (1 :: List.replicate 21 0) (by decide) (by decide) (by decide)
      _ (by decide),
   codec_roundtrip.2 _ (by decide)⟩

/-- C4 (counterexample): `HandleData` enqueues the received packet as-is
(only ttl decremented).  Feeding a 22-byte DATA frame whose header carries
`nextHopId = 7` and `visited = 1` to an engine with an empty neighbor
table queues a packet with `nextHopId = 7 ≠ 0` and `visited = 1 ≠ 0`,
refuting the queue invariant as claimed. -/
theorem handleData_enqueues_marked_packet :
    (initTHOR.HandleData
        [3, 69, 9, 0, 0, 0, 1, 0, 0, 0, 1, 0, 0, 0, 7, 0, 0, 0, 1, 0, 0, 0]
        2).1.packetQueue =
      [{ header :=
           { type := 3
             flagsAndTTL := { ttl := 4, intneighbour := 0, visited := 1, myInternet := 0 }
             destinationId := 9
             senderId := 1
             originId := 1
             nextHopId := 7
             sequence := 1 }
         payload := [] }] ∧
    (7 : Nat) ≠ 0 ∧ (1 : Nat) ≠ 0 := by
  decide

/-- Every operation either clears the queue (`ProcessQueue`'s flush) or
extends it at the back, leaving the packets already queued untouched. -/
theorem step_queue_shape (st : THOR) (op : Op) :
    (step st op).packetQueue = [] ∨
      ∃ t, (step st op).packetQueue = st.packetQueue ++ t := by
  cases op with
  | neighborStore id now rssi dI iI vis =>
    exact Or.inr ⟨[], by simp [step, THOR.NeighborStore]⟩
  | removeOld now => exact Or.inr ⟨[], by simp [step, THOR.RemoveOld]⟩
  | processQueue =>
    simp only [step, THOR.ProcessQueue]
    split
    · exact Or.inr ⟨[], by simp⟩
    · split
      · exact Or.inr ⟨[], by simp⟩
      · exact Or.inl rfl
  | sendPacket a b c d pl =>
    simp only [step, THOR.SendPacket]
    split
    · exact Or.inr ⟨[], by simp⟩
    · split
      · exact Or.inr ⟨_, rfl⟩
      · exact Or.inr ⟨[], by simp⟩
  | handleData data myId =>
    simp only [step, THOR.HandleData]
    rcases hd : Deserialize data with _ | p
    · exact Or.inr ⟨[], by simp⟩
    · simp only
      split
      · exact Or.inr ⟨[], by simp⟩
      · split
        · exact Or.inr ⟨[], by simp⟩
        · split
          · exact Or.inr ⟨[], by simp⟩
          · split
            · exact Or.inr ⟨_, rfl⟩
            · exact Or.inr ⟨[], by simp⟩

/-- C4 (amended): every packet `SendPacket` enqueues has `nextHopId = 0`
and `visited = 0`, and every operation leaves already-queued packets
intact (it appends, keeps, or — only in a flush — clears the queue);
but packets queued by `HandleData` keep the received frame's
`nextHopId`/`visited` bits instead of 0. -/
theorem sendPacket_enqueues_clean_header :
    (∀ (st : THOR) (a b c d : Nat) (payload : List Nat),
      ∀ p ∈ (st.SendPacket a b c d payload).1.packetQueue,
        p ∈ st.packetQueue ∨
          (p.header.nextHopId = 0 ∧ p.header.flagsAndTTL.visited = 0)) ∧
    (∀ (st : THOR) (op : Op),
      (step st op).packetQueue = [] ∨
        ∃ t, (step st op).packetQueue = st.packetQueue ++ t) := by
  constructor
  · intro st a b c d payload p hp
    simp only [THOR.SendPacket] at hp
    split at hp
    · exact Or.inl hp
    · split at hp
      · rcases List.mem_append.mp hp with h | h
        · exact Or.inl h
        · rw [List.mem_singleton] at h
          subst h; exact Or.inr ⟨rfl, rfl⟩
      · exact Or.inl hp
  · exact step_queue_shape

/-- Witness for `sendPacket_enqueues_clean_header`: the packet queued by a
fresh engine's `SendPacket` (no neighbors, so it is stored) has
`nextHopId = 0` and `visited = 0`. -/
theorem sendPacket_enqueues_clean_header_witness :
    ({ header :=
         { type := 3
           flagsAndTTL := { ttl := 15, intneighbour := 0, visited := 0, myInternet := 0 }
           destinationId := 9999
           senderId := 1
           originId := 1
           nextHopId := 0
           sequence := 1 }
       payload := [72] } : Packet) ∈ initTHOR.packetQueue ∨
      (({ header :=
            { type := 3
              flagsAndTTL := { ttl := 15, intneighbour := 0, visited := 0, myInternet := 0 }
              destinationId := 9999
              senderId := 1
              originId := 1
              nextHopId := 0
              sequence := 1 }
          payload := [72] } : Packet).header.nextHopId = 0 ∧
       ({ header :=
            { type := 3
              flagsAndTTL := { ttl := 15, intneighbour := 0, visited := 0, myInternet := 0 }
              destinationId := 9999
              senderId := 1
              originId := 1
              nextHopId := 0
              sequence := 1 }
          payload := [72] } : Packet).header.flagsAndTTL.visited = 0) :=
  sendPacket_enqueues_clean_header.1 initTHOR 9999 1 1 1 [72] _ (by decide)

/-- C5: a successfully decoded DATA frame with `ttl ≥ 2`, a foreign
destination, and a nonzero scorer result `hop` is forwarded: the returned
bytes decode to the same packet with `ttl` decremented by one,
`nextHopId = hop`, `visited = 1`, and all other header fields and the
payload unchanged. -/
theorem handleData_forward_spec (st : THOR) (data : List Nat) (myId hop : Nat)
    (p : Packet) (hdec : Deserialize data = some p)
    (httl : 2 ≤ p.header.flagsAndTTL.ttl)
    (hdst : p.header.destinationId ≠ myId)
    (hhop : st.GetBestNextHop = hop) (hne : hop ≠ 0) (hlt : hop < 4294967296) :
    Deserialize (st.HandleData data myId).2 =
      some { header :=
               { p.header with
                 nextHopId := hop,
                 flagsAndTTL :=
                   { p.header.flagsAndTTL with
                     ttl := p.header.flagsAndTTL.ttl - 1,
                     visited := 1 } },
             payload := p.payload } := by
  have hWF := deserialize_WF data p hdec
  obtain ⟨ht, ⟨h1, h2, h3, h4⟩, hd, hs, ho, hn, hq⟩ := hWF
  unfold THOR.HandleData
  rw [hdec]
  simp only [hhop,
    if_neg (show ¬ p.header.flagsAndTTL.ttl ≤ 1 by omega),
    if_neg hdst, if_pos hne]
  exact deserialize_serialize _
    ⟨ht, ⟨show p.header.flagsAndTTL.ttl - 1 < 32 by omega, h2,
          show (1 : Nat) < 2 by omega, h4⟩, hd, hs, ho, hlt, hq⟩

/-- Witness for `handleData_forward_spec`: the spec's S3 scenario — engine
with one direct-internet neighbor 3 forwards the S2 frame, returning bytes
that decode with `nextHopId = 3`, `ttl = 14`, `visited = 1`. -/
theorem handleData_forward_spec_witness :
    Deserialize
        ((THOR.mk [(3, { lastSeen := 100, rssi := -72, hasInternetDirect := true,
                         hasInternetIndirect := false, isVisited := false })] []).HandleData
          [3, 79, 15, 39, 0, 0, 1, 0, 0, 0, 1, 0, 0, 0, 2, 0, 0, 0, 1, 0, 0, 0, 72]
          2).2 =
      some { header :=
               { type := 3
                 flagsAndTTL := { ttl := 14, intneighbour := 0, visited := 1, myInternet := 0 }
                 destinationId := 9999
                 senderId := 1
                 originId := 1
                 nextHopId := 3
                 sequence := 1 }
             payload := [72] } := by
  have h := handleData_forward_spec
      (THOR.mk [(3, { lastSeen := 100, rssi := -72, hasInternetDirect := true,
                      hasInternetIndirect := false, isVisited := false })] [])
      [3, 79, 15, 39, 0, 0, 1, 0, 0, 0, 1, 0, 0, 0, 2, 0, 0, 0, 1, 0, 0, 0, 72]
      2 3
      { header :=
          { type := 3
            flagsAndTTL := { ttl := 15, intneighbour := 0, visited := 1, myInternet := 0 }
            destinationId := 9999
            senderId := 1
            originId := 1
            nextHopId := 2
            sequence := 1 }
        payload := [72] }
      (by decide) (by decide) (by decide) (by decide) (by decide) (by decide)
  simpa using h

/-- C7: a DATA frame that decodes with `ttl ≤ 1` is dropped: `HandleData`
returns empty bytes and the engine state — in particular the pending
queue — is unchanged. -/
theorem handleData_ttl_exhausted (st : THOR) (data : List Nat) (myId : Nat)
    (p : Packet) (hdec : Deserialize data = some p)
    (httl : p.header.flagsAndTTL.ttl ≤ 1) :
    st.HandleData data myId = (st, []) := by
  unfold THOR.HandleData
  rw [hdec]
  simp only [if_pos httl]

/-- Witness for `handleData_ttl_exhausted`: a `ttl = 1` DATA frame fed to a
fresh engine returns empty bytes and leaves the state untouched. -/
theorem handleData_ttl_exhausted_witness :
    initTHOR.HandleData
        [3, 1, 9, 0, 0, 0, 1, 0, 0, 0, 1, 0, 0, 0, 0, 0, 0, 0, 1, 0, 0, 0] 2 =
      (initTHOR, []) :=
  handleData_ttl_exhausted initTHOR
    [3, 1, 9, 0, 0, 0, 1, 0, 0, 0, 1, 0, 0, 0, 0, 0, 0, 0, 1, 0, 0, 0] 2
    { header :=
        { type := 3
          flagsAndTTL := { ttl := 1, intneighbour := 0, visited := 0, myInternet := 0 }
          destinationId := 9
          senderId := 1
          originId := 1
          nextHopId := 0
          sequence := 1 }
      payload := [] }
    (by decide) (by decide)

/-- Every single operation keeps the pending queue within 50 packets. -/
theorem step_preserves_queue_bound (st : THOR) (op : Op)
    (h : st.packetQueue.length ≤ 50) : (step st op).packetQueue.length ≤ 50 := by
  cases op with
  | neighborStore id now rssi dI iI vis => exact h
  | removeOld now => exact h
  | processQueue =>
    simp only [step, THOR.ProcessQueue]
    split
    · exact h
    · split
      · exact h
      · simp
  | sendPacket a b c d pl =>
    simp only [step, THOR.SendPacket]
    split
    · exact h
    · split
      · next hc =>
        simp only [List.length_append, List.length_singleton]
        omega
      · exact h
  | handleData data myId =>
    simp only [step, THOR.HandleData]
    rcases hd : Deserialize data with _ | p
    · exact h
    · simp only
      split
      · exact h
      · split
        · exact h
        · split
          · exact h
          · split
            · next hc =>
              simp only [List.length_append, List.length_singleton]
              omega
            · exact h

/-- C8: after any sequence of engine operations from a fresh engine the
pending queue holds at most 50 packets; and on a state whose queue already
holds 50 entries, `SendPacket` with no viable hop returns empty bytes and
leaves the state — queue included — unchanged. -/
theorem packetQueue_bounded :
    (∀ ops : List Op, (run initTHOR ops).packetQueue.length ≤ 50) ∧
    (∀ (st : THOR) (a b c d : Nat) (payload : List Nat),
        st.packetQueue.length = 50 → st.GetBestNextHop = 0 →
        (st.SendPacket a b c d payload).2 = [] ∧
        (st.SendPacket a b c d payload).1 = st) := by
  constructor
  · have hgen : ∀ (ops : List Op) (st : THOR),
        st.packetQueue.length ≤ 50 → (run st ops).packetQueue.length ≤ 50 := by
      intro ops
      induction ops with
      | nil => intro st h; exact h
      | cons op rest ih =>
        intro st h
        exact ih _ (step_preserves_queue_bound st op h)
    intro ops
    exact hgen ops initTHOR (by simp [initTHOR])
  · intro st a b c d payload hlen hhop
    simp only [THOR.SendPacket, hhop]
    rw [if_neg (by simp), if_neg (by omega)]
    exact ⟨rfl, rfl⟩

/-- Witness for `packetQueue_bounded`: a one-`SendPacket` run stays within
the bound, and a 51st `SendPacket` on a hop-less engine whose queue already
holds 50 copies of a packet returns empty and changes nothing. -/
theorem packetQueue_bounded_witness :
    (run initTHOR [Op.sendPacket 9999 1 1 1 [72]]).packetQueue.length ≤ 50 ∧
    ((THOR.mk [] (List.replicate 50
        { header :=
            { type := 3
              flagsAndTTL := { ttl := 15, intneighbour := 0, visited := 0, myInternet := 0 }
              destinationId := 9999
              senderId := 1
              originId := 1
              nextHopId := 0
              sequence := 1 }
          payload := [72] })).SendPacket 9999 1 1 1 [72]).2 = [] ∧
    ((THOR.mk [] (List.replicate 50
        { header :=
            { type := 3
              flagsAndTTL := { ttl := 15, intneighbour := 0, visited := 0, myInternet := 0 }
              destinationId := 9999
              senderId := 1
              originId := 1
              nextHopId := 0
              sequence := 1 }
          payload := [72] })).SendPacket 9999 1 1 1 [72]).1 =
      THOR.mk [] (List.replicate 50
        { header :=
            { type := 3
              flagsAndTTL := { ttl := 15, intneighbour := 0, visited := 0, myInternet := 0 }
              destinationId := 9999
              senderId := 1
              originId := 1
              nextHopId := 0
              sequence := 1 }
          payload := [72] }) :=
  ⟨packetQueue_bounded.1 [Op.sendPacket 9999 1 1 1 [72]],
   (packetQueue_bounded.2 (THOR.mk [] (List.replicate 50
      { header :=
          { type := 3
            flagsAndTTL := { ttl := 15, intneighbour := 0, visited := 0, myInternet := 0 }
            destinationId := 9999
            senderId := 1
            originId := 1
            nextHopId := 0
            sequence := 1 }
        payload := [72] })) 9999 1 1 1 [72] (by simp) rfl).1,
   (packetQueue_bounded.2 (THOR.mk [] (List.replicate 50
      { header :=
          { type := 3
            flagsAndTTL := { ttl := 15, intneighbour := 0, visited := 0, myInternet := 0 }
            destinationId := 9999
            senderId := 1
            originId := 1
            nextHopId := 0
            sequence := 1 }
        payload := [72] })) 9999 1 1 1 [72] (by simp) rfl).2⟩

/-- C9: `ProcessQueue` returns an empty batch and keeps the state when
the queue is empty or the scorer yields 0; with a nonzero scorer result
`hop` it empties the queue, marks `hop` visited in the table, and returns
one serialized packet per queued packet in FIFO order, each rewritten
with `nextHopId = hop` and `visited = 1`. -/
theorem processQueue_spec (st : THOR) (hop : Nat)
    (hhop : st.GetBestNextHop = hop) :
    (st.packetQueue = [] → st.ProcessQueue = (st, [])) ∧
    (hop = 0 → st.ProcessQueue = (st, [])) ∧
    (hop ≠ 0 → st.packetQueue ≠ [] →
      st.ProcessQueue.1.packetQueue = [] ∧
      (lookupNeighbor hop st.ProcessQueue.1.neighborTable).map
        NeighborInfo.isVisited = some true ∧
      st.ProcessQueue.2 = st.packetQueue.map (fun p =>
        Serialize { p with header :=
          { p.header with
            nextHopId := hop,
            flagsAndTTL := { p.header.flagsAndTTL with visited := 1 } } })) := by
  refine ⟨?_, ?_, ?_⟩
  · intro hq
    unfold THOR.ProcessQueue
    rw [if_pos hq]
  · intro h0
    unfold THOR.ProcessQueue
    split
    · rfl
    · rw [hhop, h0, if_pos rfl]
  · intro hne hq
    simp only [THOR.ProcessQueue, hhop, if_neg hq, if_neg hne]
    exact ⟨trivial, lookupNeighbor_setVisited hop st.neighborTable, trivial⟩

/-- Witness for `processQueue_spec`: the spec's S2 scenario — one queued
packet, indirect-internet neighbor 2; the flush empties the queue, marks 2
visited and emits the packet with `nextHopId = 2`, `visited = 1`. -/
theorem processQueue_spec_witness :
    (THOR.mk [(2, { lastSeen := 100, rssi := -65, hasInternetDirect := false,
                    hasInternetIndirect := true, isVisited := false })]
        [{ header :=
             { type := 3
               flagsAndTTL := { ttl := 15, intneighbour := 0, visited := 0, myInternet := 0 }
               destinationId := 9999
               senderId := 1
               originId := 1
               nextHopId := 0
               sequence := 1 }
           payload := [72] }]).ProcessQueue.1.packetQueue = [] ∧
    (lookupNeighbor 2
        (THOR.mk [(2, { lastSeen := 100, rssi := -65, hasInternetDirect := false,
                        hasInternetIndirect := true, isVisited := false })]
          [{ header :=
               { type := 3
                 flagsAndTTL := { ttl := 15, intneighbour := 0, visited := 0, myInternet := 0 }
                 destinationId := 9999
                 senderId := 1
                 originId := 1
                 nextHopId := 0
                 sequence := 1 }
             payload := [72] }]).ProcessQueue.1.neighborTable).map
      NeighborInfo.isVisited = some true ∧
    (THOR.mk [(2, { lastSeen := 100, rssi := -65, hasInternetDirect := false,
                    hasInternetIndirect := true, isVisited := false })]
        [{ header :=
             { type := 3
               flagsAndTTL := { ttl := 15, intneighbour := 0, visited := 0, myInternet := 0 }
               destinationId := 9999
               senderId := 1
               originId := 1
               nextHopId := 0
               sequence := 1 }
           payload := [72] }]).ProcessQueue.2 =
      [[3, 79, 15, 39, 0, 0, 1, 0, 0, 0, 1, 0, 0, 0, 2, 0, 0, 0, 1, 0, 0, 0, 72]] := by
  have h := (processQueue_spec
      (THOR.mk [(2, { lastSeen := 100, rssi := -65, hasInternetDirect := false,
                      hasInternetIndirect := true, isVisited := false })]
        [{ header :=
             { type := 3
               flagsAndTTL := { ttl := 15, intneighbour := 0, visited := 0, myInternet := 0 }
               destinationId := 9999
               senderId := 1
               originId := 1
               nextHopId := 0
               sequence := 1 }
           payload := [72] }]) 2 (by decide)).2.2 (by decide) (by decide)
  exact ⟨h.1, h.2.1, h.2.2.trans (by decide)⟩

/-- C10: when an entry keyed 0 has been stored in the neighbor table and
its score strictly dominates every other entry (the id-0 entry is first in
`std::map` key order), `GetBestNextHop` returns 0 — indistinguishable from
"no route" — and `SendPacket` queues the packet and returns empty bytes
even though a scoring neighbor exists. -/
theorem zero_id_neighbor_masks_route (st : THOR) (info0 : NeighborInfo)
    (rest : List (Nat × NeighborInfo))
    (htab : st.neighborTable = (0, info0) :: rest)
    (hmax : ∀ e ∈ rest, neighborScore e.2 < neighborScore info0)
    (a b c d : Nat) (payload : List Nat)
    (hq : st.packetQueue.length < 50) :
    st.GetBestNextHop = 0 ∧
    (st.SendPacket a b c d payload).2 = [] ∧
    (st.SendPacket a b c d payload).1.packetQueue =
      st.packetQueue ++
        [{ header :=
             { type := 3
               flagsAndTTL := { ttl := 15, intneighbour := 0, visited := 0, myInternet := 0 }
               destinationId := a
               senderId := b
               originId := c
               nextHopId := 0
               sequence := d }
           payload := payload }] := by
  have hloop : ∃ m, bestLoop ((0, info0) :: rest) 0 (-1) = (0, m) := by
    by_cases hs : neighborScore info0 > -1
    · refine ⟨neighborScore info0, ?_⟩
      simp only [bestLoop, if_pos hs]
      exact bestLoop_const rest 0 _ (fun e he => by have := hmax e he; omega)
    · refine ⟨-1, ?_⟩
      simp only [bestLoop, if_neg hs]
      exact bestLoop_const rest 0 _ (fun e he => by have := hmax e he; omega)
  obtain ⟨m, hm⟩ := hloop
  have hbest : st.GetBestNextHop = 0 := by
    unfold THOR.GetBestNextHop
    rw [htab, hm, if_neg (by simp)]
    split <;> rfl
  refine ⟨hbest, ?_, ?_⟩
  · simp only [THOR.SendPacket, hbest]
    rw [if_neg (by simp)]
  · simp only [THOR.SendPacket, hbest]
    rw [if_neg (by simp), if_pos hq]

/-- Witness for `zero_id_neighbor_masks_route`: a direct-internet neighbor
stored under id 0 (score 350) makes `GetBestNextHop` return 0 and
`SendPacket` queue instead of sending. -/
theorem zero_id_neighbor_masks_route_witness :
    (THOR.mk [(0, { lastSeen := 100, rssi := -65, hasInternetDirect := true,
                    hasInternetIndirect := false, isVisited := false })]
        []).GetBestNextHop = 0 ∧
    ((THOR.mk [(0, { lastSeen := 100, rssi := -65, hasInternetDirect := true,
                     hasInternetIndirect := false, isVisited := false })]
        []).SendPacket 9999 1 1 1 [72]).2 = [] ∧
    ((THOR.mk [(0, { lastSeen := 100, rssi := -65, hasInternetDirect := true,
                     hasInternetIndirect := false, isVisited := false })]
        []).SendPacket 9999 1 1 1 [72]).1.packetQueue =
      [{ header :=
           { type := 3
             flagsAndTTL := { ttl := 15, intneighbour := 0, visited := 0, myInternet := 0 }
             destinationId := 9999
             senderId := 1
             originId := 1
             nextHopId := 0
             sequence := 1 }
         payload := [72] }] :=
  zero_id_neighbor_masks_route
    (THOR.mk [(0, { lastSeen := 100, rssi := -65, hasInternetDirect := true,
                    hasInternetIndirect := false, isVisited := false })] [])
    { lastSeen := 100, rssi := -65, hasInternetDirect := true,
      hasInternetIndirect := false, isVisited := false }
    [] rfl (by simp) 9999 1 1 1 [72] (by simp)
